import Mathlib

/-!
Verification of the configurable rule-pipeline engine of the ExcelConvert
repository (`src/rules/workflow_builder.py` and `src/rules/calculate_totals.py`).

The Python code is shallowly embedded:

* a Python value flowing through a record is a `Value` (`None`, `int`, `float`
  modelled exactly as a fraction of integers, or `str`);
* a Python `dict` is an association list with in-place update / append
  semantics (`Record`, `WState`), reflecting dict insertion order;
* a rule transform `Record -> Record` that may raise becomes
  `Record → Option Record`, with `none` modelling a raised exception;
* `load_rule_function`'s interaction with the filesystem and the Python
  module-loading machinery is abstracted into a `RuleEnv` describing, for each
  (module, function) pair, whether the file exists, how executing the module
  body turns out, whether the attribute is present, and which transform it
  denotes; the control flow of `load_rule_function` itself is translated
  directly from the source.
-/

/-- An exact fraction `num / den` (with `den > 0` for every fraction produced
by the operations below), modelling a Python float without rounding error.
The fraction is deliberately kept unnormalised so that every arithmetic
operation is a plain `Int`/`Nat` computation.  The engine's claims never
compare two `PyF` values for equality, so the structural `DecidableEq` is
never applied to fractions with different representations of one value. -/
structure PyF where
  num : Int
  den : Nat
deriving DecidableEq, Repr

/-- The fraction `n / 1`. -/
def PyF.ofInt (n : Int) : PyF := ⟨n, 1⟩

/-- Exact product of two fractions. -/
def PyF.mul (a b : PyF) : PyF := ⟨a.num * b.num, a.den * b.den⟩

/-- Exact sum of two fractions. -/
def PyF.add (a b : PyF) : PyF :=
  ⟨a.num * (b.den : Int) + b.num * (a.den : Int), a.den * b.den⟩

/-- Exact difference of two fractions. -/
def PyF.sub (a b : PyF) : PyF :=
  ⟨a.num * (b.den : Int) - b.num * (a.den : Int), a.den * b.den⟩

/-- Exact quotient of two fractions (used only with nonzero divisors). -/
def PyF.div (a b : PyF) : PyF :=
  if b.num < 0 then ⟨a.num * (-(b.den : Int)), a.den * b.num.natAbs⟩
  else ⟨a.num * (b.den : Int), a.den * b.num.natAbs⟩

/-- Strict order on fractions (denominators are positive). -/
def PyF.lt (a b : PyF) : Bool :=
  a.num * (b.den : Int) < b.num * (a.den : Int)

/-- Whether the fraction is the number zero. -/
def PyF.isZero (a : PyF) : Bool := a.num == 0

/-- Floor of a fraction, as an integer. -/
def PyF.floor (a : PyF) : Int := a.num.fdiv (a.den : Int)

/-- Python `int(x)` on a float: truncation toward zero. -/
def PyF.trunc (a : PyF) : Int :=
  if a.num < 0 then -(Int.ofNat (a.num.natAbs / a.den))
  else Int.ofNat (a.num.natAbs / a.den)

/-- A Python value stored in a record: `None`, `int`, `float` (modelled as an
exact fraction), or `str`.  The rules under `src/rules/` only ever store these
shapes in the fields they touch. -/
inductive Value where
  | vNull
  | vInt (n : Int)
  | vFlt (q : PyF)
  | vStr (s : String)
deriving DecidableEq, Repr

/-- A record (`Dict[str, Any]` in the source): an ordered association list. -/
abbrev Record := List (String × Value)

/-- Python `d.get(k)` without default: `some v` when the key is present. -/
def rgetOpt (r : Record) (k : String) : Option Value :=
  (r.find? (fun kv => kv.1 == k)).map (fun kv => kv.2)

/-- Python `d.get(k)` collapsed the way the rule code observes it: a missing
key and a stored `None` both read as `None`. -/
def pyGet (r : Record) (k : String) : Value :=
  (rgetOpt r k).getD Value.vNull

/-- Python `d[k] = v`: update the first (only) binding of `k` in place,
keeping its position, or append a new binding at the end. -/
def rset : Record → String → Value → Record
  | [], k, v => [(k, v)]
  | (a, b) :: t, k, v => if a == k then (k, v) :: t else (a, b) :: rset t k v

/-- Python truthiness of a value, as used by the `or` between the two
`单箱个数` lookups: `None`, `0`, `0.0` and `""` are falsy. -/
def truthy : Value → Bool
  | Value.vNull => false
  | Value.vInt n => n != 0
  | Value.vFlt q => !q.isZero
  | Value.vStr s => s != ""

/-- Python `str.strip()` (whitespace removed at both ends). -/
def pyStrip (s : String) : String :=
  String.mk (((s.data.dropWhile Char.isWhitespace).reverse.dropWhile
      Char.isWhitespace).reverse)

/-- A decimal-style rendering of a modelled float; stands in for Python's
`str` on the `vFlt` case of `pyStr`.  No claim evaluates it on a float. -/
def floatRepr (q : PyF) : String :=
  if q.den = 1 then toString q.num ++ ".0"
  else toString q.num ++ "/" ++ toString q.den

/-- Python `str(value)` for the value shapes the rules handle. -/
def pyStr : Value → String
  | Value.vNull => "None"
  | Value.vInt n => toString n
  | Value.vFlt q => floatRepr q
  | Value.vStr s => s

/-- Numeric value of a list of decimal digit characters. -/
def digitsVal (cs : List Char) : Nat :=
  cs.foldl (fun n c => n * 10 + (c.toNat - 48)) 0

/-- Whether every character of the list is a decimal digit. -/
def allDigits (cs : List Char) : Bool :=
  cs.all Char.isDigit

/-- Python `float(s)` on plain decimal literals (optional sign, digits,
optional single point; surrounding whitespace ignored); `none` models the
`ValueError` raised on anything else.  Exponent/`inf`/`nan` forms, which the
rule configuration never produces, are modelled as errors. -/
def pyFloat (s : String) : Option PyF :=
  let cs := (pyStrip s).data
  let signAndBody : Int × List Char :=
    match cs with
    | '-' :: t => (-1, t)
    | '+' :: t => (1, t)
    | _ => (1, cs)
  let sign := signAndBody.1
  let body := signAndBody.2
  let intPart := body.takeWhile Char.isDigit
  let rest := body.dropWhile Char.isDigit
  match rest with
  | [] =>
      if intPart.isEmpty then none
      else some ⟨sign * (digitsVal intPart : Int), 1⟩
  | '.' :: frac =>
      if allDigits frac && (!intPart.isEmpty || !frac.isEmpty) then
        some ⟨sign * ((digitsVal intPart : Int) * (10 ^ frac.length : Nat) +
          (digitsVal frac : Int)), 10 ^ frac.length⟩
      else none
  | _ => none

/-- Python `float(value)` applied directly to a value (used on
`产品总个数`): exact on `int`/`float`, parses a `str`, raises (`none`) on
`None`. -/
def pyFloatV : Value → Option PyF
  | Value.vInt n => some (PyF.ofInt n)
  | Value.vFlt q => some q
  | Value.vStr s => pyFloat s
  | Value.vNull => none

/-- Python `round(x, 4)`: round to four decimal places, ties to even. -/
def pyRound4 (q : PyF) : PyF :=
  let x := q.mul (PyF.ofInt 10000)
  let f := x.floor
  let r := x.sub (PyF.ofInt f)
  let half : PyF := ⟨1, 2⟩
  let n := if r.lt half then f
    else if half.lt r then f + 1
    else if f % 2 = 0 then f else f + 1
  ⟨n, 10000⟩

/-- The expression `float(str(x).strip()) if str(x).strip() != 'null' else None`
from `apply_calculate_totals_rule`: `.ok none` is the `None` branch,
`.error ()` a raised `ValueError` (caught by the surrounding `except`). -/
def toFloatOrNull (v : Value) : Except Unit (Option PyF) :=
  let s := pyStrip (pyStr v)
  if s = "null" then Except.ok none
  else
    match pyFloat s with
    | some q => Except.ok (some q)
    | none => Except.error ()

/-- Embedding of `apply_calculate_totals_rule` from
`src/rules/calculate_totals.py` (lines 19–95): computes `产品总个数` from
`总箱数 × 单箱个数`, then `申报总价` and `采购总价` from the unit prices,
each step silently skipped on conversion failure, exactly as in the source's
`try`/`except` structure. -/
def apply_calculate_totals_rule (data : Record) : Record :=
  -- 产品总个数 = 总箱数 × 单箱个数
  let tb := pyGet data "总箱数"
  let ppb :=
    if truthy (pyGet data "单箱个数") then pyGet data "单箱个数"
    else pyGet data "单箱\n个数"
  let data :=
    if tb ≠ Value.vNull ∧ ppb ≠ Value.vNull then
      match toFloatOrNull tb, toFloatOrNull ppb with
      | Except.ok (some tq), Except.ok (some pq) =>
          if (PyF.ofInt 0).lt tq ∧ (PyF.ofInt 0).lt pq then
            rset data "产品总个数" (Value.vInt (tq.mul pq).trunc)
          else data
      | _, _ => data
    else data
  -- 获取最终的产品总个数
  let ptc := pyGet data "产品总个数"
  if ptc = Value.vNull ∨ ptc = Value.vStr "null" ∨ pyStrip (pyStr ptc) = "" then
    data
  else
    match pyFloatV ptc with
    | none => data
    | some ptcQ =>
        -- 申报总价 = 申报单价 × 产品总个数
        let dup := pyGet data "申报单价"
        let data :=
          if dup ≠ Value.vNull ∧ dup ≠ Value.vStr "null" then
            match pyFloat (pyStrip (pyStr dup)) with
            | some dq => rset data "申报总价" (Value.vFlt (pyRound4 (dq.mul ptcQ)))
            | none => data
          else data
        -- 采购总价 = 采购单价 × 产品总个数
        let pup := pyGet data "采购单价"
        if pup ≠ Value.vNull ∧ pup ≠ Value.vStr "null" then
          match pyFloat (pyStrip (pyStr pup)) with
          | some pq2 => rset data "采购总价" (Value.vFlt (pyRound4 (pq2.mul ptcQ)))
          | none => data
        else data

/-- Embedding of `apply_calculate_rules` (`src/rules/calculate_totals.py`
lines 98–100): a backward-compatibility alias. -/
def apply_calculate_rules (data : Record) : Record :=
  apply_calculate_totals_rule data

/-- Whether `need` occurs as a leading run of `hay` (character-wise). -/
def charsLeadEq : List Char → List Char → Bool
  | [], _ => true
  | _ :: _, [] => false
  | a :: as, b :: bs => a == b && charsLeadEq as bs

/-- Whether `need` occurs contiguously anywhere inside `hay`. -/
def charsContain : List Char → List Char → Bool
  | hay, need =>
    charsLeadEq need hay ||
      match hay with
      | [] => false
      | _ :: t => charsContain t need

/-- Python's `pat in s` substring test. -/
def strContains (s pat : String) : Bool :=
  charsContain s.data pat.data

/-- Embedding of `validate_rule_path` (`src/rules/workflow_builder.py`
lines 88–103).  The source first rejects any module path containing `..`,
`/` or `\`; it then re-checks that `rules_dir / f"{module}.py"` resolves
inside the rules directory.  For a name free of separators and of `..` that
resolved path is one plain file name inside the directory, so the second
check always succeeds once the first has passed; it is modelled as `true`. -/
def validate_rule_path (module_path : String) (function_name : String) : Bool :=
  if strContains module_path ".." || strContains module_path "/"
      || strContains module_path "\\" then
    false
  else
    true

/-- The exceptions `load_rule_function` can propagate to its caller:
`ConfigError` (unsafe path), `FileNotFoundError` (missing rule file) and
`AttributeError` (missing function), per the handler at lines 133–135. -/
inductive LoadErr where
  | configError
  | fileNotFound
  | attributeError
deriving DecidableEq, Repr

/-- Outcome of executing a rule module's body (`spec.loader.exec_module`):
it either completes, raises one of the exception classes the source's first
handler re-raises, or raises some other exception. -/
inductive ExecResult where
  | ok
  | raisesListed (e : LoadErr)
  | raisesOther
deriving DecidableEq, Repr

/-- Abstraction of the filesystem and Python import machinery that
`load_rule_function` consults: whether `rules_dir/{module}.py` exists, how
executing the module body turns out, whether the loaded module has the named
attribute, and which record transform that attribute denotes (`none` models
an exception raised by the transform at call time). -/
structure RuleEnv where
  fileExists : String → Bool
  execResult : String → ExecResult
  hasFunc : String → String → Bool
  funcImpl : String → String → (Record → Option Record)

/-- The `dummy_func` fallback created inside `load_rule_function`
(lines 139–142): logs a warning and returns the data unchanged. -/
def dummy_func : Record → Option Record := fun data => some data

/-- Embedding of `load_rule_function` (`src/rules/workflow_builder.py`
lines 106–142).  A failed security check raises `ConfigError`; a missing
file raises `FileNotFoundError`; a module body that raises one of the
listed exception classes has it re-raised by the first handler; any other
loading exception is converted into the no-op `dummy_func`; a missing
attribute raises `AttributeError`; otherwise the named function is
returned.  `Except.error` models an exception propagating to the caller. -/
def load_rule_function (env : RuleEnv) (module_name function_name : String) :
    Except LoadErr (Record → Option Record) :=
  if validate_rule_path module_name function_name then
    if env.fileExists module_name then
      match env.execResult module_name with
      | ExecResult.raisesListed e => Except.error e
      | ExecResult.raisesOther => Except.ok dummy_func
      | ExecResult.ok =>
          if env.hasFunc module_name function_name then
            Except.ok (env.funcImpl module_name function_name)
          else Except.error LoadErr.attributeError
    else Except.error LoadErr.fileNotFound
  else Except.error LoadErr.configError

/-- Declared configuration of one node (`nodes` entry of the YAML config):
module, function and description. -/
structure NodeConfig where
  module : String
  function : String
  description : String
deriving DecidableEq, Repr

/-- One declared edge of the workflow; endpoints are node names or the
sentinels `"START"` / `"END"`. -/
structure EdgeConfig where
  src : String
  dst : String
deriving DecidableEq, Repr

/-- The `workflow` section of the configuration. -/
structure WorkflowSettings where
  wtype : String
  state_key : String
deriving DecidableEq, Repr

/-- A parsed rules configuration: `workflow`, `nodes` (in declaration
order), `edges` and `disabled_nodes`. -/
structure RulesConfig where
  workflow : WorkflowSettings
  nodes : List (String × NodeConfig)
  edges : List EdgeConfig
  disabled_nodes : List String

/-- The hard-coded default configuration returned by `load_rules_config`
when reading or parsing the file fails (`src/rules/workflow_builder.py`
lines 50–85). -/
def default_rules_config : RulesConfig :=
  { workflow := { wtype := "sequential", state_key := "product_data" }
  , nodes :=
      [ ("format_fba_id",
          ⟨"format_fba_id", "apply_fba_rule", "格式化FBA箱号"⟩)
      , ("replace_parentheses",
          ⟨"replace_parentheses", "apply_parentheses_rule", "替换英文括号为中文括号"⟩)
      , ("calculate_totals",
          ⟨"calculate_totals", "apply_calculate_rules", "计算价格相关字段"⟩)
      , ("fill_missing_values",
          ⟨"fill_missing_values", "apply_fill_missing_values_rule", "补充空值"⟩) ]
  , edges :=
      [ ⟨"START", "format_fba_id"⟩
      , ⟨"format_fba_id", "replace_parentheses"⟩
      , ⟨"replace_parentheses", "calculate_totals"⟩
      , ⟨"calculate_totals", "fill_missing_values"⟩
      , ⟨"fill_missing_values", "END"⟩ ]
  , disabled_nodes := [] }

/-- Embedding of `load_rules_config` (`src/rules/workflow_builder.py`
lines 35–85): the argument is the outcome of reading and parsing the YAML
file (`none` models any read or parse exception); on failure the error is
logged and the hard-coded default configuration is returned instead of
raising. -/
def load_rules_config : Option RulesConfig → RulesConfig
  | some cfg => cfg
  | none => default_rules_config

/-- The outer execution state (`Dict[str, Any]` holding the record under the
configured state key), as passed to `app.invoke`. -/
abbrev WState := List (String × Record)

/-- Python `state[k]` on the outer state: `none` models a `KeyError`. -/
def sget (state : WState) (k : String) : Option Record :=
  (state.find? (fun kv => kv.1 == k)).map (fun kv => kv.2)

/-- Python `state[k] = v` on the outer state: update in place or append. -/
def sset : WState → String → Record → WState
  | [], k, v => [(k, v)]
  | (a, b) :: t, k, v => if a == k then (k, v) :: t else (a, b) :: sset t k v

/-- One step of the per-node assembly loops of `build_dynamic_workflow`
(lines 224–243) and `create_simple_workflow` (lines 272–282): a node named
in `disabled_nodes` is skipped; otherwise its rule function is loaded, and
any exception raised by the loader — `ConfigError` included — is caught by
the loop's `except`, logged, and the node is skipped. -/
def add_node (env : RuleEnv) (disabled : List String)
    (acc : List (String × (Record → Option Record))) (nc : String × NodeConfig) :
    List (String × (Record → Option Record)) :=
  if disabled.contains nc.1 then acc
  else
    match load_rule_function env nc.2.module nc.2.function with
    | Except.ok f => acc ++ [(nc.1, f)]
    | Except.error _ => acc

/-- The ordered list of successfully-assembled (node name, transform) pairs,
shared by both assembly strategies (the two source loops have identical
filter/load/skip semantics). -/
def active_nodes (env : RuleEnv) (nodes : List (String × NodeConfig))
    (disabled : List String) : List (String × (Record → Option Record)) :=
  nodes.foldl (add_node env disabled) []

/-- Embedding of the inner `simple_workflow` executor
(`src/rules/workflow_builder.py` lines 284–293): run the record through the
active nodes in order; a node whose rule raises is logged and its attempt
discarded, the running record staying as it was before that node. -/
def simple_workflow (active : List (String × (Record → Option Record)))
    (data : Record) : Record :=
  active.foldl
    (fun result nf =>
      match nf.2 result with
      | some r => r
      | none => result)
    data

/-- The `SimpleWorkflow` object returned by `create_simple_workflow`
(lines 296–302): it carries the assembled nodes and the configured state
key. -/
structure SimpleWorkflow where
  active : List (String × (Record → Option Record))
  state_key : String

/-- Embedding of `SimpleWorkflow.invoke` (lines 297–299): read the record
at `state_key` (a missing key raises `KeyError`, modelled as `none`), run
`simple_workflow` on it, and return a fresh state holding only
`state_key`. -/
def SimpleWorkflow.invoke (wf : SimpleWorkflow) (state : WState) :
    Option WState :=
  (sget state wf.state_key).map
    (fun data => [(wf.state_key, simple_workflow wf.active data)])

/-- Embedding of `create_simple_workflow` (lines 268–302). -/
def create_simple_workflow (env : RuleEnv) (nodes : List (String × NodeConfig))
    (disabled : List String) (state_key : String) : SimpleWorkflow :=
  ⟨active_nodes env nodes disabled, state_key⟩

/-- Embedding of the `node_function` closure built by `create_node_function`
(`src/rules/workflow_builder.py` lines 153–170): read the record at the
state key (a missing key raises out of the node), call the rule on it, and
return the partial state `{state_key: processed}` — on a rule exception the
partial state carries the record from before the node ran. -/
def node_function (state_key : String) (rule_func : Record → Option Record)
    (state : WState) : Option WState :=
  (sget state state_key).map
    (fun data =>
      [(state_key,
        match rule_func data with
        | some processed => processed
        | none => data)])

/-- Modelled from the spec: the external graph-execution facility
(`langgraph`, absent from `src/`) applies a node's partial state update by
merging the returned mapping into the current state. -/
def merge_state (state update : WState) : WState :=
  update.foldl (fun s kv => sset s kv.1 kv.2) state

/-- Follow the declared edges from a given name, collecting successive
destinations until `END` (or until no outgoing edge or the fuel runs out). -/
def chain_order_from (edges : List EdgeConfig) (cur : String) :
    Nat → List String
  | 0 => []
  | fuel + 1 =>
      match edges.find? (fun e => e.src == cur) with
      | none => []
      | some e =>
          if e.dst == "END" then []
          else e.dst :: chain_order_from edges e.dst fuel

/-- The linear execution order a chain of declared edges describes: the
nodes reached from `START`, in edge order. -/
def chain_order (edges : List EdgeConfig) : List String :=
  chain_order_from edges "START" (edges.length + 1)

/-- Modelled from the spec: the compiled graph runs the nodes in the order
the edge chain dictates, threading the merged state; a name without an
assembled node, or a `KeyError` inside a node, fails the invocation. -/
def graph_invoke (state_key : String)
    (active : List (String × (Record → Option Record)))
    (order : List String) (state : WState) : Option WState :=
  match order with
  | [] => some state
  | name :: rest =>
      match active.find? (fun nf => nf.1 == name) with
      | none => none
      | some nf =>
          match node_function state_key nf.2 state with
          | none => none
          | some upd => graph_invoke state_key active rest (merge_state state upd)

/-- The compiled graph-backed application: assembled nodes, state key and
linear execution order. -/
structure GraphApp where
  state_key : String
  active : List (String × (Record → Option Record))
  order : List String

/-- Invoke the compiled graph on a state. -/
def GraphApp.invoke (app : GraphApp) (state : WState) : Option WState :=
  graph_invoke app.state_key app.active app.order state

/-- Embedding of `build_dynamic_workflow` (`src/rules/workflow_builder.py`
lines 197–265) on the graph-backed path: filter and load the nodes exactly
as `create_simple_workflow` does, then determine the execution order —
an empty node set compiles to an empty graph (lines 246–248), declared
edges are used when present (line 251–253), and otherwise the nodes are
chained in declaration order (lines 255–259). -/
def build_dynamic_workflow (env : RuleEnv) (cfg : RulesConfig) : GraphApp :=
  let active := active_nodes env cfg.nodes cfg.disabled_nodes
  let names := active.map (fun nf => nf.1)
  let order :=
    if names.isEmpty then []
    else if cfg.edges.isEmpty then names
    else chain_order cfg.edges
  ⟨cfg.workflow.state_key, active, order⟩

/-- The record a finished invocation holds under the state key. -/
def record_out (state_key : String) (res : Option WState) : Option Record :=
  res.bind (fun st => sget st state_key)

/-- A rule environment in which every module file exists, executes cleanly
and exports every requested function; every resolved transform is the
identity.  Used to instantiate universally quantified theorems. -/
def env_ok : RuleEnv :=
  { fileExists := fun _ => true
  , execResult := fun _ => ExecResult.ok
  , hasFunc := fun _ _ => true
  , funcImpl := fun _ _ => fun data => some data }

/-- A rule environment whose module `seta` resolves to a transform writing
`x := 1` and every other module to a transform writing `x := 2`; loading
always succeeds. -/
def env_setx : RuleEnv :=
  { fileExists := fun _ => true
  , execResult := fun _ => ExecResult.ok
  , hasFunc := fun _ _ => true
  , funcImpl := fun m _ =>
      if m == "seta" then fun data => some (rset data "x" (Value.vInt 1))
      else fun data => some (rset data "x" (Value.vInt 2)) }

/-- A rule environment in which no module file exists. -/
def env_nofile : RuleEnv :=
  { fileExists := fun _ => false
  , execResult := fun _ => ExecResult.ok
  , hasFunc := fun _ _ => true
  , funcImpl := fun _ _ => fun data => some data }

/-- A two-node configuration whose declared edges visit the nodes in the
reverse of their declaration order (`START → B → A → END`). -/
def cfg_reversed : RulesConfig :=
  { workflow := { wtype := "sequential", state_key := "product_data" }
  , nodes := [("A", ⟨"seta", "f", ""⟩), ("B", ⟨"setb", "f", ""⟩)]
  , edges := [⟨"START", "B"⟩, ⟨"B", "A"⟩, ⟨"A", "END"⟩]
  , disabled_nodes := [] }

/-- A two-node configuration whose declared edges visit the nodes in their
declaration order (`START → A → B → END`). -/
def cfg_forward : RulesConfig :=
  { workflow := { wtype := "sequential", state_key := "product_data" }
  , nodes := [("A", ⟨"seta", "f", ""⟩), ("B", ⟨"setb", "f", ""⟩)]
  , edges := [⟨"START", "A"⟩, ⟨"A", "B"⟩, ⟨"B", "END"⟩]
  , disabled_nodes := [] }

lemma simple_workflow_append (xs ys : List (String × (Record → Option Record)))
    (data : Record) :
    simple_workflow (xs ++ ys) data = simple_workflow ys (simple_workflow xs data) := by
  simp [simple_workflow, List.foldl_append]

lemma simple_workflow_cons (p : String × (Record → Option Record))
    (rest : List (String × (Record → Option Record))) (data : Record) :
    simple_workflow (p :: rest) data
      = simple_workflow rest
          (match p.2 data with
           | some r => r
           | none => data) := rfl

/-- C1 (failure isolation): in either executor a node whose transform raises
on the record it receives is logged, its attempt discarded, and execution
continues with the pre-node record — the `simple_workflow` loop therefore
yields exactly the output of the pipeline with that node removed, and a
graph node's `node_function` returns the pre-node record as its update. -/
theorem c1_failure_isolation :
    (∀ (pre post : List (String × (Record → Option Record))) (name : String)
        (t : Record → Option Record) (data : Record),
        t (simple_workflow pre data) = none →
        simple_workflow (pre ++ (name, t) :: post) data
          = simple_workflow (pre ++ post) data)
  ∧ (∀ (sk : String) (t : Record → Option Record) (state : WState)
        (data : Record),
        sget state sk = some data → t data = none →
        node_function sk t state = some [(sk, data)]) := by
  constructor
  · intro pre post name t data hfail
    rw [simple_workflow_append, simple_workflow_append,
      simple_workflow_cons]
    simp only [hfail]
  · intro sk t state data hget hfail
    simp [node_function, hget, hfail]

/-- The always-failing transform standing for node `B` of the spec's
failure-isolation example. -/
def tfFailB : Record → Option Record := fun _ => none

/-- The transform standing for node `A` of the spec's example. -/
def tfSetA : Record → Option Record :=
  fun data => some (rset data "a" (Value.vInt 1))

/-- The transform standing for node `C` of the spec's example. -/
def tfSetC : Record → Option Record :=
  fun data => some (rset data "c" (Value.vInt 3))

/-- Witness for C1 at the spec's example: nodes `[A, B(fails), C]` on
`{x: 1}` equal nodes `[A, C]` on `{x: 1}`. -/
theorem c1_failure_isolation_witness :
    simple_workflow [("A", tfSetA), ("B", tfFailB), ("C", tfSetC)]
        [("x", Value.vInt 1)]
      = simple_workflow [("A", tfSetA), ("C", tfSetC)] [("x", Value.vInt 1)]
  ∧ node_function "product_data" tfFailB
        [("product_data", [("x", Value.vInt 1)])]
      = some [("product_data", [("x", Value.vInt 1)])] :=
  ⟨c1_failure_isolation.1 [("A", tfSetA)] [("C", tfSetC)] "B" tfFailB
      [("x", Value.vInt 1)] rfl,
   c1_failure_isolation.2 "product_data" tfFailB
      [("product_data", [("x", Value.vInt 1)])] [("x", Value.vInt 1)] rfl rfl⟩

/-- C2 (trust boundary): a module string containing `..` or a path
separator makes `load_rule_function` raise `ConfigError` (for every
environment, i.e. before any file is consulted), and conversely any module
string that passes `validate_rule_path` — the only gate to the file read —
is free of `..` and separators, so the file read is a single plain name
inside the trusted rule directory. -/
theorem c2_path_traversal_rejected :
    (∀ (env : RuleEnv) (m f : String),
        (strContains m ".." || strContains m "/" || strContains m "\\") = true →
        load_rule_function env m f = Except.error LoadErr.configError)
  ∧ (∀ m f : String, validate_rule_path m f = true →
        (strContains m ".." || strContains m "/" || strContains m "\\") = false) := by
  constructor
  · intro env m f h
    simp [load_rule_function, validate_rule_path, h]
  · intro m f h
    by_cases hb : (strContains m ".." || strContains m "/" || strContains m "\\") = true
    · simp [validate_rule_path, hb] at h
    · simpa using hb

/-- Witness for C2 at the spec's example module reference `../secrets`. -/
theorem c2_path_traversal_rejected_witness :
    load_rule_function env_ok "../secrets" "f"
      = Except.error LoadErr.configError :=
  c2_path_traversal_rejected.1 env_ok "../secrets" "f" (by decide)

/-- C8 (example scenario): the single-node pipeline `[calculate_totals]`
bound to `apply_calculate_rules` maps `{总箱数: 2, 单箱个数: 80}` to
`{总箱数: 2, 单箱个数: 80, 产品总个数: 160}`. -/
theorem c8_calculate_totals_example :
    simple_workflow
        [("calculate_totals", fun data => some (apply_calculate_rules data))]
        [("总箱数", Value.vInt 2), ("单箱个数", Value.vInt 80)]
      = [("总箱数", Value.vInt 2), ("单箱个数", Value.vInt 80),
         ("产品总个数", Value.vInt 160)] := by decide

/-- C9 (config fallback): when reading or parsing the configuration fails,
`load_rules_config` returns (rather than raises) the hard-coded default:
the four canonical nodes with their module/function bindings, a linear
edge chain from `START` to `END` visiting them in declaration order, and
no disabled nodes. -/
theorem c9_config_fallback_default :
    load_rules_config none = default_rules_config
  ∧ (load_rules_config none).nodes.map (fun nc => nc.1)
      = ["format_fba_id", "replace_parentheses", "calculate_totals",
         "fill_missing_values"]
  ∧ (load_rules_config none).nodes.map (fun nc => (nc.2.module, nc.2.function))
      = [("format_fba_id", "apply_fba_rule"),
         ("replace_parentheses", "apply_parentheses_rule"),
         ("calculate_totals", "apply_calculate_rules"),
         ("fill_missing_values", "apply_fill_missing_values_rule")]
  ∧ (load_rules_config none).edges
      = [⟨"START", "format_fba_id"⟩, ⟨"format_fba_id", "replace_parentheses"⟩,
         ⟨"replace_parentheses", "calculate_totals"⟩,
         ⟨"calculate_totals", "fill_missing_values"⟩,
         ⟨"fill_missing_values", "END"⟩]
  ∧ (load_rules_config none).disabled_nodes = []
  ∧ chain_order (load_rules_config none).edges
      = (load_rules_config none).nodes.map (fun nc => nc.1) :=
  ⟨rfl, by decide, by decide, rfl, rfl, by decide⟩

/-- C10 (fallback invoke shape): when the input state holds the configured
state key, `SimpleWorkflow.invoke` returns a state with exactly that one
key bound to the transformed record, dropping every other key; when the
state key is absent, the `state[state_key]` lookup raises `KeyError`
instead of passing the state through. -/
theorem c10_invoke_state_shape
    (active : List (String × (Record → Option Record)))
    (sk : String) (state : WState) :
    (∀ data : Record, sget state sk = some data →
        SimpleWorkflow.invoke ⟨active, sk⟩ state
          = some [(sk, simple_workflow active data)])
  ∧ (sget state sk = none → SimpleWorkflow.invoke ⟨active, sk⟩ state = none) := by
  constructor
  · intro data h
    simp [SimpleWorkflow.invoke, h]
  · intro h
    simp [SimpleWorkflow.invoke, h]

/-- Witness for C10: an input state with an extra key is collapsed to the
state-key singleton; a state without the key fails. -/
theorem c10_invoke_state_shape_witness :
    SimpleWorkflow.invoke ⟨[], "product_data"⟩
        [("extra", []), ("product_data", [("x", Value.vInt 1)])]
      = some [("product_data", [("x", Value.vInt 1)])]
  ∧ SimpleWorkflow.invoke ⟨[], "product_data"⟩ [("other", [])] = none :=
  ⟨(c10_invoke_state_shape [] "product_data"
      [("extra", []), ("product_data", [("x", Value.vInt 1)])]).1
      [("x", Value.vInt 1)] rfl,
   (c10_invoke_state_shape [] "product_data" [("other", [])]).2 rfl⟩

/-- Whether loading the node's rule function succeeds (no exception reaches
the assembly loop). -/
def load_ok (env : RuleEnv) (nc : String × NodeConfig) : Bool :=
  match load_rule_function env nc.2.module nc.2.function with
  | Except.ok _ => true
  | Except.error _ => false

lemma foldl_add_node_acc (env : RuleEnv) (disabled : List String) :
    ∀ (nodes : List (String × NodeConfig))
      (acc : List (String × (Record → Option Record))),
      List.foldl (add_node env disabled) acc nodes
        = acc ++ List.foldl (add_node env disabled) [] nodes := by
  intro nodes
  induction nodes with
  | nil => intro acc; simp
  | cons nc t ih =>
      intro acc
      have hstep : ∀ a, add_node env disabled a nc = a ++ add_node env disabled [] nc := by
        intro a
        unfold add_node
        by_cases h : disabled.contains nc.1 = true
        · rw [if_pos h, if_pos h]
          simp
        · rw [if_neg h, if_neg h]
          rcases hl : load_rule_function env nc.2.module nc.2.function with e | fimpl
          · simp
          · simp
      calc List.foldl (add_node env disabled) acc (nc :: t)
          = List.foldl (add_node env disabled) (add_node env disabled acc nc) t := rfl
        _ = add_node env disabled acc nc
              ++ List.foldl (add_node env disabled) [] t := ih _
        _ = (acc ++ add_node env disabled [] nc)
              ++ List.foldl (add_node env disabled) [] t := by rw [hstep]
        _ = acc ++ (add_node env disabled [] nc
              ++ List.foldl (add_node env disabled) [] t) := by
            rw [List.append_assoc]
        _ = acc ++ List.foldl (add_node env disabled)
              (add_node env disabled [] nc) t := by rw [← ih]
        _ = acc ++ List.foldl (add_node env disabled) [] (nc :: t) := rfl

lemma active_nodes_append (env : RuleEnv) (disabled : List String)
    (xs ys : List (String × NodeConfig)) :
    active_nodes env (xs ++ ys) disabled
      = active_nodes env xs disabled ++ active_nodes env ys disabled := by
  unfold active_nodes
  rw [List.foldl_append, foldl_add_node_acc]

lemma active_nodes_cons (env : RuleEnv) (disabled : List String)
    (nc : String × NodeConfig) (t : List (String × NodeConfig)) :
    active_nodes env (nc :: t) disabled
      = add_node env disabled [] nc ++ active_nodes env t disabled := by
  unfold active_nodes
  show List.foldl _ (add_node env disabled [] nc) t = _
  rw [foldl_add_node_acc]

lemma add_node_error (env : RuleEnv) (disabled : List String)
    (nc : String × NodeConfig) (e : LoadErr)
    (h : load_rule_function env nc.2.module nc.2.function = Except.error e) :
    add_node env disabled [] nc = [] := by
  unfold add_node
  by_cases hd : disabled.contains nc.1 <;> simp [hd, h]

lemma active_nodes_skip (env : RuleEnv) (pre post : List (String × NodeConfig))
    (nc : String × NodeConfig) (disabled : List String)
    (h : add_node env disabled [] nc = []) :
    active_nodes env (pre ++ nc :: post) disabled
      = active_nodes env (pre ++ post) disabled := by
  rw [active_nodes_append, active_nodes_append, active_nodes_cons, h]
  simp

lemma active_nodes_all_disabled (env : RuleEnv)
    (nodes : List (String × NodeConfig)) (disabled : List String)
    (h : ∀ nc ∈ nodes, disabled.contains nc.1 = true) :
    active_nodes env nodes disabled = [] := by
  induction nodes with
  | nil => rfl
  | cons nc t ih =>
      rw [active_nodes_cons]
      have hnc : add_node env disabled [] nc = [] := by
        unfold add_node
        rw [if_pos (h nc (by simp))]
      rw [hnc, List.nil_append]
      exact ih (fun q hq => h q (by simp [hq]))

lemma active_nodes_names (env : RuleEnv) (disabled : List String) :
    ∀ nodes : List (String × NodeConfig),
      (∀ nc ∈ nodes, disabled.contains nc.1 = false → load_ok env nc = true) →
      (active_nodes env nodes disabled).map (fun nf => nf.1)
        = (nodes.filter (fun nc => !(disabled.contains nc.1))).map
            (fun nc => nc.1) := by
  intro nodes
  induction nodes with
  | nil => intro _; rfl
  | cons nc t ih =>
      intro h
      rw [active_nodes_cons, List.map_append]
      by_cases hd : disabled.contains nc.1 = true
      · have hadd : add_node env disabled [] nc = [] := by
          unfold add_node
          rw [if_pos hd]
        have hfil : List.filter (fun nc => !disabled.contains nc.1) (nc :: t)
            = List.filter (fun nc => !disabled.contains nc.1) t := by
          rw [List.filter_cons, hd]
          rfl
        rw [hadd, List.map_nil, List.nil_append, hfil]
        exact ih (fun q hq hq2 => h q (by simp [hq]) hq2)
      · have hdf : disabled.contains nc.1 = false := by simpa using hd
        have hok := h nc (by simp) hdf
        unfold load_ok at hok
        rcases hload : load_rule_function env nc.2.module nc.2.function with e | fimpl
        · rw [hload] at hok
          simp at hok
        · have hadd : add_node env disabled [] nc = [(nc.1, fimpl)] := by
            unfold add_node
            rw [if_neg hd, hload]
            rfl
          have hfil : List.filter (fun nc => !disabled.contains nc.1) (nc :: t)
              = nc :: List.filter (fun nc => !disabled.contains nc.1) t := by
            rw [List.filter_cons, hdf]
            rfl
          rw [hadd, hfil, List.map_cons, List.map_cons, List.map_nil,
            List.singleton_append]
          rw [ih (fun q hq hq2 => h q (by simp [hq]) hq2)]

/-- C3 fails as stated: in an environment where the module file `ghost.py`
does not exist, the resolver raises `FileNotFoundError` to its caller (the
`except` at lines 133–135 re-raises it) instead of returning a no-op
transform. -/
theorem c3_resolution_failure_counterexample :
    load_rule_function env_nofile "ghost" "fn"
      = Except.error LoadErr.fileNotFound
  ∧ load_ok env_nofile ("ghost_node", ⟨"ghost", "fn", ""⟩) = false :=
  ⟨rfl, rfl⟩

/-- C3 amended: a missing rule file raises `FileNotFoundError` and a missing
function raises `AttributeError` (both re-raised by the resolver); only
some other loading exception is converted into the logged no-op
`dummy_func`.  The raised error is then caught by the assembly loop, which
skips the node, so workflow assembly still proceeds. -/
theorem c3_resolution_failure_amended (env : RuleEnv) (m f : String)
    (hv : validate_rule_path m f = true) :
    (env.fileExists m = false →
        load_rule_function env m f = Except.error LoadErr.fileNotFound)
  ∧ (env.fileExists m = true → env.execResult m = ExecResult.ok →
        env.hasFunc m f = false →
        load_rule_function env m f = Except.error LoadErr.attributeError)
  ∧ (env.fileExists m = true → env.execResult m = ExecResult.raisesOther →
        load_rule_function env m f = Except.ok dummy_func
          ∧ ∀ data, dummy_func data = some data)
  ∧ (∀ (pre post : List (String × NodeConfig)) (name desc : String)
        (disabled : List String) (sk : String) (e : LoadErr),
        load_rule_function env m f = Except.error e →
        (create_simple_workflow env (pre ++ (name, ⟨m, f, desc⟩) :: post)
            disabled sk).active
          = (create_simple_workflow env (pre ++ post) disabled sk).active) := by
  refine ⟨?_, ?_, ?_, ?_⟩
  · intro hfile
    simp [load_rule_function, hv, hfile]
  · intro hfile hexec hfunc
    simp [load_rule_function, hv, hfile, hexec, hfunc]
  · intro hfile hexec
    exact ⟨by simp [load_rule_function, hv, hfile, hexec], fun _ => rfl⟩
  · intro pre post name desc disabled sk e hload
    exact active_nodes_skip env pre post (name, ⟨m, f, desc⟩) disabled
      (add_node_error env disabled (name, ⟨m, f, desc⟩) e hload)

/-- Witness for the amended C3 at the concrete missing module `ghost`. -/
theorem c3_resolution_failure_amended_witness :
    load_rule_function env_nofile "ghost" "fn"
      = Except.error LoadErr.fileNotFound
  ∧ (create_simple_workflow env_nofile
        ([] ++ ("g", ⟨"ghost", "fn", ""⟩) :: []) [] "product_data").active
      = (create_simple_workflow env_nofile ([] ++ []) [] "product_data").active :=
  ⟨(c3_resolution_failure_amended env_nofile "ghost" "fn" (by decide)).1 rfl,
   (c3_resolution_failure_amended env_nofile "ghost" "fn" (by decide)).2.2.2
      [] [] "g" "" [] "product_data" LoadErr.fileNotFound
      ((c3_resolution_failure_amended env_nofile "ghost" "fn" (by decide)).1 rfl)⟩

/-- C5 (empty-pipeline identity): when every declared node is disabled (in
particular when none is declared), both assemblies yield pass-through
pipelines — the fallback invoke returns the record unchanged under the
state key, the graph invoke returns the state unchanged — and neither
treats the condition as an error. -/
theorem c5_empty_pipeline_identity (env : RuleEnv) (cfg : RulesConfig)
    (state : WState) (data : Record)
    (hdis : ∀ nc ∈ cfg.nodes, cfg.disabled_nodes.contains nc.1 = true)
    (hkey : sget state cfg.workflow.state_key = some data) :
    (create_simple_workflow env cfg.nodes cfg.disabled_nodes
        cfg.workflow.state_key).invoke state
      = some [(cfg.workflow.state_key, data)]
  ∧ (build_dynamic_workflow env cfg).invoke state = some state := by
  have hact : active_nodes env cfg.nodes cfg.disabled_nodes = [] :=
    active_nodes_all_disabled env cfg.nodes cfg.disabled_nodes hdis
  constructor
  · simp [create_simple_workflow, SimpleWorkflow.invoke, hact, hkey,
      simple_workflow]
  · simp [build_dynamic_workflow, GraphApp.invoke, hact, graph_invoke]

/-- A one-node configuration whose only node is disabled. -/
def cfg_all_disabled : RulesConfig :=
  { workflow := { wtype := "sequential", state_key := "product_data" }
  , nodes := [("A", ⟨"format_fba_id", "apply_fba_rule", ""⟩)]
  , edges := []
  , disabled_nodes := ["A"] }

/-- Witness for C5 at a concrete fully-disabled configuration. -/
theorem c5_empty_pipeline_identity_witness :
    (create_simple_workflow env_ok cfg_all_disabled.nodes
        cfg_all_disabled.disabled_nodes
        cfg_all_disabled.workflow.state_key).invoke
        [("product_data", [("x", Value.vInt 1)])]
      = some [("product_data", [("x", Value.vInt 1)])]
  ∧ (build_dynamic_workflow env_ok cfg_all_disabled).invoke
        [("product_data", [("x", Value.vInt 1)])]
      = some [("product_data", [("x", Value.vInt 1)])] :=
  c5_empty_pipeline_identity env_ok cfg_all_disabled
    [("product_data", [("x", Value.vInt 1)])] [("x", Value.vInt 1)]
    (by decide) rfl

/-- C6 (disabled-node filtering): provided every enabled node's rule loads,
the compiled pipeline of either strategy consists of exactly the declared
nodes not named in `disabled_nodes`, in declaration order. -/
theorem c6_disabled_node_filtering (env : RuleEnv)
    (nodes : List (String × NodeConfig)) (disabled : List String) (sk : String)
    (h : ∀ nc ∈ nodes, disabled.contains nc.1 = false → load_ok env nc = true) :
    ((create_simple_workflow env nodes disabled sk).active).map (fun nf => nf.1)
      = (nodes.filter (fun nc => !(disabled.contains nc.1))).map (fun nc => nc.1)
  ∧ ((build_dynamic_workflow env
        ⟨⟨"sequential", sk⟩, nodes, [], disabled⟩).active).map (fun nf => nf.1)
      = (nodes.filter (fun nc => !(disabled.contains nc.1))).map
          (fun nc => nc.1) := by
  have hnames := active_nodes_names env disabled nodes h
  exact ⟨hnames, hnames⟩

/-- Witness for C6 at the spec's example: nodes `[A, B, C]` with
`disabledNodes = [B]` compile to exactly `[A, C]`. -/
theorem c6_disabled_node_filtering_witness :
    ((create_simple_workflow env_ok
        [("A", ⟨"format_fba_id", "apply_fba_rule", ""⟩),
         ("B", ⟨"replace_parentheses", "apply_parentheses_rule", ""⟩),
         ("C", ⟨"calculate_totals", "apply_calculate_rules", ""⟩)]
        ["B"] "product_data").active).map (fun nf => nf.1) = ["A", "C"]
  ∧ ((build_dynamic_workflow env_ok
        ⟨⟨"sequential", "product_data"⟩,
         [("A", ⟨"format_fba_id", "apply_fba_rule", ""⟩),
          ("B", ⟨"replace_parentheses", "apply_parentheses_rule", ""⟩),
          ("C", ⟨"calculate_totals", "apply_calculate_rules", ""⟩)],
         [], ["B"]⟩).active).map (fun nf => nf.1) = ["A", "C"] :=
  c6_disabled_node_filtering env_ok
    [("A", ⟨"format_fba_id", "apply_fba_rule", ""⟩),
     ("B", ⟨"replace_parentheses", "apply_parentheses_rule", ""⟩),
     ("C", ⟨"calculate_totals", "apply_calculate_rules", ""⟩)]
    ["B"] "product_data" (by decide)

/-- C7 fails as stated: assembling a configuration whose only node uses the
path-traversing module `../secrets` does raise `ConfigError` inside the
resolver, yet assembly does not abort — the loop's blanket `except` catches
it, skips the node, and both strategies return a usable (here empty,
pass-through) pipeline. -/
theorem c7_assembly_abort_counterexample :
    load_rule_function env_ok "../secrets" "f"
      = Except.error LoadErr.configError
  ∧ (create_simple_workflow env_ok [("evil", ⟨"../secrets", "f", ""⟩)] []
        "product_data").active = []
  ∧ (create_simple_workflow env_ok [("evil", ⟨"../secrets", "f", ""⟩)] []
        "product_data").invoke [("product_data", [("x", Value.vInt 1)])]
      = some [("product_data", [("x", Value.vInt 1)])]
  ∧ (build_dynamic_workflow env_ok
        ⟨⟨"sequential", "product_data"⟩,
         [("evil", ⟨"../secrets", "f", ""⟩)], [], []⟩).invoke
        [("product_data", [("x", Value.vInt 1)])]
      = some [("product_data", [("x", Value.vInt 1)])] :=
  ⟨rfl, rfl, rfl, rfl⟩

/-- C7 amended: pipeline assembly never aborts.  A security violation does
raise `ConfigError` inside the resolver, but the assembly loops catch every
per-node exception — `ConfigError` included — log it, skip the node, and
still produce a pipeline; so every per-node fault, security violations
among them, degrades to logged best-effort behavior. -/
theorem c7_assembly_abort_amended (env : RuleEnv)
    (pre post : List (String × NodeConfig)) (name : String) (ncfg : NodeConfig)
    (disabled : List String) (sk : String) (e : LoadErr)
    (h : load_rule_function env ncfg.module ncfg.function = Except.error e) :
    (create_simple_workflow env (pre ++ (name, ncfg) :: post) disabled sk).active
      = (create_simple_workflow env (pre ++ post) disabled sk).active
  ∧ (build_dynamic_workflow env
        ⟨⟨"sequential", sk⟩, pre ++ (name, ncfg) :: post, [], disabled⟩).active
      = (build_dynamic_workflow env
          ⟨⟨"sequential", sk⟩, pre ++ post, [], disabled⟩).active := by
  have hskip := active_nodes_skip env pre post (name, ncfg) disabled
    (add_node_error env disabled (name, ncfg) e h)
  exact ⟨hskip, hskip⟩

/-- Witness for the amended C7: a pipeline with a good node and a
path-traversing node assembles to the same pipeline as without the bad
node. -/
theorem c7_assembly_abort_amended_witness :
    (create_simple_workflow env_ok
        ([("good", ⟨"format_fba_id", "apply_fba_rule", ""⟩)]
          ++ ("evil", ⟨"../secrets", "f", ""⟩) :: []) [] "product_data").active
      = (create_simple_workflow env_ok
          ([("good", ⟨"format_fba_id", "apply_fba_rule", ""⟩)] ++ [])
          [] "product_data").active
  ∧ (build_dynamic_workflow env_ok
        ⟨⟨"sequential", "product_data"⟩,
         [("good", ⟨"format_fba_id", "apply_fba_rule", ""⟩)]
           ++ ("evil", ⟨"../secrets", "f", ""⟩) :: [], [], []⟩).active
      = (build_dynamic_workflow env_ok
          ⟨⟨"sequential", "product_data"⟩,
           [("good", ⟨"format_fba_id", "apply_fba_rule", ""⟩)] ++ [], [], []⟩).active :=
  c7_assembly_abort_amended env_ok
    [("good", ⟨"format_fba_id", "apply_fba_rule", ""⟩)] [] "evil"
    ⟨"../secrets", "f", ""⟩ [] "product_data" LoadErr.configError rfl

lemma sget_cons (a : String × Record) (t : WState) (k : String) :
    sget (a :: t) k = if a.1 == k then some a.2 else sget t k := by
  by_cases h : (a.1 == k) = true
  · have hf : List.find? (fun kv => kv.1 == k) (a :: t) = some a :=
      List.find?_cons_of_pos _ h
    simp only [sget, hf, Option.map_some', if_pos h]
  · have hf : List.find? (fun kv => kv.1 == k) (a :: t)
        = List.find? (fun kv => kv.1 == k) t :=
      List.find?_cons_of_neg _ h
    simp only [sget, hf, if_neg h]

lemma sget_sset_self (st : WState) (k : String) (v : Record) :
    sget (sset st k v) k = some v := by
  induction st with
  | nil =>
      simp only [sset]
      rw [sget_cons]
      simp
  | cons a t ih =>
      rcases a with ⟨a1, a2⟩
      by_cases h : (a1 == k) = true
      · simp only [sset, if_pos h]
        rw [sget_cons]
        simp
      · simp only [sset, if_neg h]
        rw [sget_cons, if_neg h]
        exact ih

lemma sset_sget_id (st : WState) (k : String) (v : Record)
    (h : sget st k = some v) : sset st k v = st := by
  induction st with
  | nil => simp [sget] at h
  | cons a t ih =>
      rcases a with ⟨a1, a2⟩
      rw [sget_cons] at h
      by_cases hk : (a1 == k) = true
      · rw [if_pos hk] at h
        have hv : a2 = v := by
          exact Option.some.inj h
        have ha : a1 = k := by simpa using hk
        simp only [sset, if_pos hk, ← hv, ha]
        simp
      · rw [if_neg hk] at h
        simp only [sset, if_neg hk]
        rw [ih h]

lemma sset_sset (st : WState) (k : String) (v w : Record) :
    sset (sset st k v) k w = sset st k w := by
  induction st with
  | nil => simp [sset]
  | cons a t ih =>
      rcases a with ⟨a1, a2⟩
      by_cases h : (a1 == k) = true
      · simp only [sset, if_pos h]
        simp [sset]
      · simp only [sset, if_neg h]
        rw [ih]

lemma find_self_of_nodup {α : Type} (l : List (String × α))
    (h : (l.map (fun p => p.1)).Nodup) :
    ∀ p ∈ l, l.find? (fun q => q.1 == p.1) = some p := by
  induction l with
  | nil =>
      intro p hp
      simp at hp
  | cons a t ih =>
      intro p hp
      rcases List.mem_cons.mp hp with rfl | hpt
      · exact List.find?_cons_of_pos _ (by simp)
      · have hna : a.1 ∉ t.map (fun p => p.1) := by
          rw [List.map_cons, List.nodup_cons] at h
          exact h.1
        have hne : ¬ (a.1 == p.1) = true := by
          intro hb
          have heq : a.1 = p.1 := by simpa using hb
          exact hna (heq ▸ List.mem_map_of_mem _ hpt)
        have hstep : (a :: t).find? (fun q => q.1 == p.1)
            = t.find? (fun q => q.1 == p.1) :=
          List.find?_cons_of_neg t hne
        rw [hstep]
        have ht : (t.map (fun p => p.1)).Nodup := by
          rw [List.map_cons, List.nodup_cons] at h
          exact h.2
        exact ih ht p hpt

lemma graph_invoke_run (sk : String)
    (full : List (String × (Record → Option Record))) :
    ∀ (sub : List (String × (Record → Option Record))) (state : WState)
      (data : Record),
      (∀ p ∈ sub, full.find? (fun q => q.1 == p.1) = some p) →
      sget state sk = some data →
      graph_invoke sk full (sub.map (fun nf => nf.1)) state
        = some (sset state sk (simple_workflow sub data)) := by
  intro sub
  induction sub with
  | nil =>
      intro state data _ hs
      show some state = _
      rw [show simple_workflow [] data = data from rfl,
        sset_sget_id state sk data hs]
  | cons p rest ih =>
      intro state data hfind hs
      have hp := hfind p (by simp)
      have hnode : node_function sk p.2 state
          = some [(sk,
              match p.2 data with
              | some r => r
              | none => data)] := by
        simp [node_function, hs]
      simp only [List.map_cons, graph_invoke, hp, hnode]
      have hmerge : merge_state state
          [(sk,
            match p.2 data with
            | some r => r
            | none => data)]
          = sset state sk
              (match p.2 data with
               | some r => r
               | none => data) := rfl
      rw [hmerge]
      have hrec := ih
        (sset state sk
          (match p.2 data with
           | some r => r
           | none => data))
        (match p.2 data with
         | some r => r
         | none => data)
        (fun q hq => hfind q (by simp [hq]))
        (sget_sset_self state sk _)
      rw [hrec, sset_sset]
      rfl

/-- C4 fails as stated: a two-node linear chain whose declared edges visit
the nodes in the reverse of their declaration order is executed in edge
order by the graph-backed assembly but in declaration order by the
sequential fallback (which ignores declared edges), so the two strategies
produce different output records for the same input. -/
theorem c4_strategy_equivalence_counterexample :
    record_out "product_data"
        ((build_dynamic_workflow env_setx cfg_reversed).invoke
          [("product_data", [])])
      ≠ record_out "product_data"
          ((create_simple_workflow env_setx cfg_reversed.nodes
              cfg_reversed.disabled_nodes
              cfg_reversed.workflow.state_key).invoke
            [("product_data", [])]) := by decide

/-- C4 amended: for a linear chain whose declared edge order agrees with
the declaration order of the successfully-assembled nodes — in particular
for the canonical configuration, and for any workflow declaring no edges —
the graph-backed and sequential-fallback assemblies produce the same output
record for the same input state. -/
theorem c4_strategy_equivalence_amended (env : RuleEnv) (cfg : RulesConfig)
    (state : WState) (data : Record)
    (hnodup : ((active_nodes env cfg.nodes cfg.disabled_nodes).map
        (fun nf => nf.1)).Nodup)
    (horder : cfg.edges = []
        ∨ chain_order cfg.edges
            = (active_nodes env cfg.nodes cfg.disabled_nodes).map
                (fun nf => nf.1))
    (hkey : sget state cfg.workflow.state_key = some data) :
    record_out cfg.workflow.state_key
        ((build_dynamic_workflow env cfg).invoke state)
      = record_out cfg.workflow.state_key
          ((create_simple_workflow env cfg.nodes cfg.disabled_nodes
              cfg.workflow.state_key).invoke state) := by
  have horder2 : (build_dynamic_workflow env cfg).order
      = (active_nodes env cfg.nodes cfg.disabled_nodes).map (fun nf => nf.1) := by
    show (if ((active_nodes env cfg.nodes cfg.disabled_nodes).map
          (fun nf => nf.1)).isEmpty then []
        else if cfg.edges.isEmpty then
          (active_nodes env cfg.nodes cfg.disabled_nodes).map (fun nf => nf.1)
        else chain_order cfg.edges) = _
    by_cases h1 : ((active_nodes env cfg.nodes cfg.disabled_nodes).map
        (fun nf => nf.1)).isEmpty = true
    · rw [if_pos h1]
      exact (List.isEmpty_iff.mp h1).symm
    · rw [if_neg h1]
      by_cases h2 : cfg.edges.isEmpty = true
      · rw [if_pos h2]
      · rw [if_neg h2]
        rcases horder with he | hc
        · exact absurd (by rw [he]; rfl) h2
        · exact hc
  have hfind := find_self_of_nodup
    (active_nodes env cfg.nodes cfg.disabled_nodes) hnodup
  have hg := graph_invoke_run cfg.workflow.state_key
    (active_nodes env cfg.nodes cfg.disabled_nodes)
    (active_nodes env cfg.nodes cfg.disabled_nodes) state data hfind hkey
  have hsimple : (create_simple_workflow env cfg.nodes cfg.disabled_nodes
        cfg.workflow.state_key).invoke state
      = some [(cfg.workflow.state_key,
          simple_workflow (active_nodes env cfg.nodes cfg.disabled_nodes) data)] := by
    simp [create_simple_workflow, SimpleWorkflow.invoke, hkey]
  show record_out cfg.workflow.state_key
      (graph_invoke cfg.workflow.state_key
        (active_nodes env cfg.nodes cfg.disabled_nodes)
        ((build_dynamic_workflow env cfg).order) state) = _
  rw [horder2, hg, hsimple]
  simp only [record_out, Option.some_bind, sget_sset_self]
  rw [sget_cons]
  simp

/-- Witness for the amended C4: the two-node chain declared in edge order
`START → A → B → END` (matching declaration order) produces the same output
record under both strategies. -/
theorem c4_strategy_equivalence_amended_witness :
    record_out cfg_forward.workflow.state_key
        ((build_dynamic_workflow env_setx cfg_forward).invoke
          [("product_data", [])])
      = record_out cfg_forward.workflow.state_key
          ((create_simple_workflow env_setx cfg_forward.nodes
              cfg_forward.disabled_nodes
              cfg_forward.workflow.state_key).invoke
            [("product_data", [])]) :=
  c4_strategy_equivalence_amended env_setx cfg_forward
    [("product_data", [])] [] (by decide) (Or.inr (by decide)) rfl
